import Mathlib

/-!
Shallow embedding of gbdxtools/images/meta.py: the deferred geo-referenced
image layer (DaskMeta / DaskImage / GeoImage / PlotMixin / GeoDaskWrapper),
with theorems settling the behavioural claims about warp tiling, geometry
indexing, aoi precedence, create, randwindow and ndvi.

Modelling conventions:
* Python floats are modelled as exact rationals (ℚ).
* A shapely box geometry is modelled by its bounds rectangle Rect
  (minx, miny, maxx, maxy); every geometry the claims exercise is a box,
  and shapely box.contains(box) for rectangles of positive area reduces to
  closed bounds containment.
* python int(x) truncates toward zero: pyInt.
-/

namespace GbdxMeta

/-- A rectangle given by its bounds (minx, miny, maxx, maxy).  Models a
shapely box geometry through its bounds tuple. -/
structure Rect where
  minx : ℚ
  miny : ℚ
  maxx : ℚ
  maxy : ℚ
deriving DecidableEq, Repr

/-- shapely containment of one rectangle in another (box.contains(box) for
rectangles of positive area): closed bounds containment. -/
def rectContains (A B : Rect) : Bool :=
  decide (A.minx ≤ B.minx ∧ A.miny ≤ B.miny ∧ B.maxx ≤ A.maxx ∧ B.maxy ≤ A.maxy)

/-- Closed containment of rectangle A inside rectangle B, as a Prop. -/
def rectSubset (A B : Rect) : Prop :=
  B.minx ≤ A.minx ∧ B.miny ≤ A.miny ∧ A.maxx ≤ B.maxx ∧ A.maxy ≤ B.maxy

/-- python int() applied to a rational: truncation toward zero. -/
def pyInt (q : ℚ) : ℤ :=
  if 0 ≤ q then Int.floor q else Int.ceil q

/-- Modelled from the spec: the affine transform object supplied by
gbdxtools.ipe.util (not under src/).  The spec describes it as a
north-up affine decomposition with forward pixel→geo map
(col, row) ↦ (c + a·col, f + e·row), a reverse geo→pixel map that inverts
it, and translation composition: adding a pixel offset (dx, dy) yields the
transform whose pixel origin is shifted by that offset. -/
structure GeoTfm where
  a : ℚ
  c : ℚ
  e : ℚ
  f : ℚ
deriving DecidableEq, Repr

/-- Modelled from the spec: the reverse (geo→pixel) map of the transform. -/
def GeoTfm.rev (t : GeoTfm) (x y : ℚ) : ℚ × ℚ :=
  ((x - t.c) / t.a, (y - t.f) / t.e)

/-- Modelled from the spec: translation composition
tfm + (dx, dy) — shifts the pixel origin by (dx, dy). -/
def GeoTfm.translate (t : GeoTfm) (dx dy : ℚ) : GeoTfm :=
  { a := t.a, c := t.c + t.a * dx, e := t.e, f := t.f + t.e * dy }

/-- ops.transform(tfm.rev, g) followed by .bounds for a box geometry g:
the reverse map is applied to the four corners of g and the bounds of the
images are taken (the diagonal affine sends corners to extremes). -/
def revRect (t : GeoTfm) (g : Rect) : Rect :=
  let x1 := (g.minx - t.c) / t.a
  let x2 := (g.maxx - t.c) / t.a
  let y1 := (g.miny - t.f) / t.e
  let y2 := (g.maxy - t.f) / t.e
  { minx := min x1 x2, miny := min y1 y2, maxx := max x1 x2, maxy := max y1 y2 }

/-- Python errors raised by the modelled operations. -/
inductive PyErr
  /-- TypeError, e.g. shapely box() called with fewer than four coordinates. -/
  | typeError : PyErr
  /-- The containment AssertionError of GeoImage.__getitem__; the message
  interpolates the geometry bounds and the image bounds, carried here as
  payload. -/
  | assertContain (geomBounds : Rect) (imgBounds : Rect) : PyErr
  /-- An AssertionError with a plain message. -/
  | assertMsg (msg : String) : PyErr
deriving DecidableEq, Repr

/-! ### GeoImage.warp (meta.py lines 215-255)

The warp algorithm builds a dict-based deferred task graph.  The external
metadata service (self.ipe.metadata, im_full.bounds, the rpcs gsd default)
is modelled by explicit parameters; everything downstream of those values
follows the source line by line. -/

/-- The per-image tiling metadata record img_md fetched from the metadata
service: tileXSize, tileYSize, minTileX, minTileY (numBands, dataType only
feed the daskmeta shape/dtype and are carried where needed). -/
structure WarpMd where
  tileXSize : ℕ
  tileYSize : ℕ
  minTileX : ℤ
  minTileY : ℤ
deriving DecidableEq, Repr

/-- A key of the warp dask graph: (name, band 0, normalized row, normalized
col), as written by warp at meta.py line 253. -/
structure WarpKey where
  name : String
  band : ℕ
  row : ℤ
  col : ℤ
deriving DecidableEq, Repr

/-- The gsd-anchored affine transform of warp (meta.py line 227):
Affine.from_gdal(im_full.bounds[0], gsd, 0.0, im_full.bounds[3], 0.0, -gsd),
i.e. forward (col, row) ↦ (fullminx + gsd·col, fullmaxy − gsd·row). -/
def warpGtf (fullBounds : Rect) (gsd : ℚ) : GeoTfm :=
  { a := gsd, c := fullBounds.minx, e := -gsd, f := fullBounds.maxy }

/-- ll = ~gtf * (self.bounds[:2]) (meta.py line 229): the lower-left corner
of the current image bounds in pixel space under the gsd-anchored affine. -/
def warpLL (fullBounds selfBounds : Rect) (gsd : ℚ) : ℚ × ℚ :=
  (warpGtf fullBounds gsd).rev selfBounds.minx selfBounds.miny

/-- ur = ~gtf * (self.bounds[2:]) (meta.py line 230). -/
def warpUR (fullBounds selfBounds : Rect) (gsd : ℚ) : ℚ × ℚ :=
  (warpGtf fullBounds gsd).rev selfBounds.maxx selfBounds.maxy

/-- x_chunks = int((ur[0] - ll[0]) / x_size) + 1 (meta.py line 231). -/
def warpXChunks (fullBounds selfBounds : Rect) (gsd : ℚ) (md : WarpMd) : ℤ :=
  pyInt (((warpUR fullBounds selfBounds gsd).1 - (warpLL fullBounds selfBounds gsd).1)
    / md.tileXSize) + 1

/-- y_chunks = int((ll[1] - ur[1]) / y_size) + 1 (meta.py line 232). -/
def warpYChunks (fullBounds selfBounds : Rect) (gsd : ℚ) (md : WarpMd) : ℤ :=
  pyInt (((warpLL fullBounds selfBounds gsd).2 - (warpUR fullBounds selfBounds gsd).2)
    / md.tileYSize) + 1

/-- px_to_geom(xmin, ymin) (meta.py lines 242-246): the geo-footprint of the
tile whose pixel lower-left is (xmin, ymin); box(*bounds) with
bounds = (gtf * (xmin, ymax)) + (gtf * (xmax, ymin)),
xmax = int(xmin + tileXSize), ymax = int(ymin + tileYSize). -/
def pxToGeom (fullBounds : Rect) (gsd : ℚ) (md : WarpMd) (xmin ymin : ℚ) : Rect :=
  let gtf := warpGtf fullBounds gsd
  let xmax : ℤ := pyInt (xmin + md.tileXSize)
  let ymax : ℤ := pyInt (ymin + md.tileYSize)
  { minx := gtf.c + gtf.a * xmin, miny := gtf.f + gtf.e * (ymax : ℚ),
    maxx := gtf.c + gtf.a * (xmax : ℚ), maxy := gtf.f + gtf.e * ymin }

/-- The warp dask graph (meta.py lines 248-253) as the list of key/task
registrations performed by the double loop, in loop order: for y in
xrange(y_chunks), for x in xrange(x_chunks), register key
(name, 0, y - minTileY, x - minTileX) with the tile geo-footprint as the
geometry argument of the deferred warp_geometry task. -/
def warpGraph (name : String) (fullBounds selfBounds : Rect) (gsd : ℚ)
    (md : WarpMd) : List (WarpKey × Rect) :=
  let ll := warpLL fullBounds selfBounds gsd
  let ur := warpUR fullBounds selfBounds gsd
  (List.range (warpYChunks fullBounds selfBounds gsd md).toNat).flatMap fun y =>
    (List.range (warpXChunks fullBounds selfBounds gsd md).toNat).map fun x =>
      ({ name := name, band := 0,
         row := (y : ℤ) - md.minTileY, col := (x : ℤ) - md.minTileX },
       pxToGeom fullBounds gsd md (ll.1 + x * md.tileXSize) (ur.2 + y * md.tileYSize))

/-- The keys of the warp dask graph. -/
def warpKeys (name : String) (fullBounds selfBounds : Rect) (gsd : ℚ)
    (md : WarpMd) : List WarpKey :=
  (warpGraph name fullBounds selfBounds gsd md).map Prod.fst

/-! ### GeoImage: containment, geometry indexing, aoi
(meta.py lines 147-197, 300-343) -/

/-- A geo-referenced image: its array shape (list of axis extents, band
axis first when 3 axes), its geo transform and its geo interface geometry
(modelled by its bounds rectangle, as every geometry the claims exercise is
a box). -/
structure GImage where
  shape : List ℕ
  tfm : GeoTfm
  geo : Rect
  proj : Option String
deriving DecidableEq, Repr

/-- GeoImage.bounds (meta.py lines 172-175): shape(self).bounds, the bounds
of the geo interface geometry. -/
def GImage.bounds (img : GImage) : Rect := img.geo

/-- self.shape[2:0:-1]: the Python extended slice from index 2 down to
(exclusive) index 0 with step -1.  For a 3-axis shape (b, rows, cols) it is
(cols, rows); for a 2-axis shape (rows, cols) it is the 1-tuple (cols,). -/
def shapeSlice20m1 (s : List ℕ) : List ℕ :=
  ((s.drop 1).take 2).reverse

/-- shapely box(minx, miny, maxx, maxy) applied to a positional argument
list: a TypeError unless exactly four coordinates are supplied. -/
def boxOfArgs : List ℚ → Except PyErr Rect
  | [a, b, c, d] => .ok { minx := a, miny := b, maxx := c, maxy := d }
  | _ => .error .typeError

/-- GeoImage.__contains__ (meta.py lines 340-343): transform the query
geometry into pixel space by the reverse transform, build
box(0, 0, *self.shape[2:0:-1]) and test containment.  For a 2-axis shape
the box call receives three arguments and raises a TypeError. -/
def GImage.containsE (img : GImage) (g : Rect) : Except PyErr Bool := do
  let geometry := revRect img.tfm g
  let imgBox ← boxOfArgs ((0 : ℚ) :: (0 : ℚ) :: (shapeSlice20m1 img.shape).map (fun n => (n : ℚ)))
  .ok (rectContains imgBox geometry)

/-- Index of a Python slice bound q (an integral pixel coordinate) into an
axis of extent n: clamp ⌊q⌋ into [0, n]. -/
def sliceIdx (q : ℚ) (n : ℕ) : ℕ :=
  (max 0 (min (Int.floor q) (n : ℤ))).toNat

/-- The length of the Python slice lo:hi over an axis of extent n
(for nonnegative bounds). -/
def sliceLen (lo hi : ℚ) (n : ℕ) : ℕ :=
  sliceIdx hi n - sliceIdx lo n

/-- The shape of self[:, bounds1:bounds3, bounds0:bounds2] for a 3-axis
image (meta.py line 331). -/
def sliceShape (shape : List ℕ) (b : Rect) : List ℕ :=
  match shape with
  | [bands, rows, cols] => [bands, sliceLen b.miny b.maxy rows, sliceLen b.minx b.maxx cols]
  | s => s

/-- GeoImage.__getitem__ (meta.py lines 326-338): assert g in self (raising
the containment AssertionError carrying g.bounds and self.bounds in its
message), compute the pixel window bounds of g under the reverse transform,
slice the array to that window, and return a new image whose geo interface
is mapping(g) and whose transform is
self.__geo_transform__ + (bounds[0], bounds[1]). -/
def GImage.getitem (img : GImage) (g : Rect) : Except PyErr GImage := do
  let c ← img.containsE g
  if c then
    let bounds := revRect img.tfm g
    .ok { shape := sliceShape img.shape bounds,
          tfm := img.tfm.translate bounds.minx bounds.miny,
          geo := g,
          proj := img.proj }
  else
    .error (.assertContain g img.bounds)

/-- GeoImage._parse_geoms (meta.py lines 300-316).  The bbox is the raw
4-element bounds array; wkt and geojson inputs are modelled by the geometry
(bounds rectangle) that shapely parses them to (wkt.loads / shape are
external shapely collaborators).  Reprojection (_reproject, external pyproj
machinery) is modelled by the function argument rp taking the geometry and
the from_proj string. -/
def parseGeoms (img : GImage) (rp : Rect → String → Rect)
    (bbox : Option (ℚ × ℚ × ℚ × ℚ)) (wktGeom : Option Rect) (geojson : Option Rect)
    (fromProj : Option String) : Option Rect :=
  let g? : Option Rect :=
    match bbox, wktGeom, geojson with
    | some b, _, _ => some { minx := b.1, miny := b.2.1, maxx := b.2.2.1, maxy := b.2.2.2 }
    | none, some w, _ => some w
    | none, none, some gj => some gj
    | none, none, none => none
  match g? with
  | none => none
  | some g =>
    match img.proj with
    | none => some g
    | some _ => some (rp g (fromProj.getD "EPSG:4326"))

/-- GeoImage.aoi (meta.py lines 182-197): parse the geometry kwargs; if no
geometry was given return self unchanged, else subset via geometry
indexing. -/
def GImage.aoi (img : GImage) (rp : Rect → String → Rect)
    (bbox : Option (ℚ × ℚ × ℚ × ℚ)) (wktGeom : Option Rect) (geojson : Option Rect)
    (fromProj : Option String) : Except PyErr GImage :=
  match parseGeoms img rp bbox wktGeom geojson fromProj with
  | none => .ok img
  | some g => img.getitem g

/-! ### DaskMeta / DaskImage.create (meta.py lines 41-70, 116-124) -/

/-- A concrete DaskMeta record: the five attributes the DaskMeta interface
requires (dask graph, name, chunks, dtype, shape).  The graph is modelled
as the keyed task list used by warp. -/
structure DaskMeta where
  dask : List (WarpKey × Rect)
  name : String
  chunks : List ℕ
  dtype : String
  shape : List ℕ
deriving DecidableEq, Repr

/-- A Python value passed to DaskImage.create: either an instance of a
DaskMeta subclass, or some other object (failing the isinstance check). -/
inductive PyVal
  | daskMeta (m : DaskMeta) : PyVal
  | other (tag : String) : PyVal
deriving DecidableEq, Repr

/-- A DaskImage as produced by create: the dask array built from the
declared dask/name/chunks/dtype/shape, with the DaskMeta attached as the
retrievable __daskmeta__ capability by DaskMeta.infect. -/
structure DaskImageM where
  dask : List (WarpKey × Rect)
  name : String
  chunks : List ℕ
  dtype : String
  shape : List ℕ
  daskmeta : DaskMeta
deriving DecidableEq, Repr

/-- DaskImage.create (meta.py lines 116-124) together with the
DaskMeta.infect plugin it installs (lines 66-70): assert the argument is an
instance of a DaskMeta subclass, construct the dask array from the declared
attributes, and let infect assert the resulting array has 2 or 3 axes and
attach the meta object as __daskmeta__. -/
def create : PyVal → Except PyErr DaskImageM
  | .other _ => .error (.assertMsg "argument must be an instance of a DaskMeta subclass")
  | .daskMeta m =>
    if m.shape.length = 2 ∨ m.shape.length = 3 then
      .ok { dask := m.dask, name := m.name, chunks := m.chunks,
            dtype := m.dtype, shape := m.shape, daskmeta := m }
    else
      .error (.assertMsg "target must be a dask array with 2 or 3 dimensions")

/-! ### DaskImage.randwindow (meta.py lines 133-136)

random.randrange(a, b) returns a uniformly random integer in [a, b); the
two draws are modelled as explicit arguments row, col together with the
range conditions randrange guarantees.  randwindow then returns
self[:, row - window_shape[0]:row, col - window_shape[0]:col]. -/

/-- A window into a 3-axis image: all bands, rows rlo ≤ r < rhi, columns
clo ≤ c < chi. -/
structure Window where
  rlo : ℕ
  rhi : ℕ
  clo : ℕ
  chi : ℕ
deriving DecidableEq, Repr

/-- DaskImage.randwindow (meta.py lines 133-136), as a function of the two
randrange draws: row = randrange(window_shape[0], shape[1]) and
col = randrange(window_shape[1], shape[2]); the returned slice is
self[:, row - window_shape[0]:row, col - window_shape[0]:col] — note the
source uses window_shape[0] in both slice widths. -/
def randwindow (windowShape : ℕ × ℕ) (row col : ℕ) : Window :=
  { rlo := row - windowShape.1, rhi := row,
    clo := col - windowShape.1, chi := col }

/-- The set of valid draw pairs for randwindow on an image of shape
(bands, rows, cols): randrange(a, b) yields a ≤ draw < b. -/
def randwindowDrawOK (shape : ℕ × ℕ × ℕ) (windowShape : ℕ × ℕ) (row col : ℕ) : Prop :=
  windowShape.1 ≤ row ∧ row < shape.2.1 ∧ windowShape.2 ≤ col ∧ col < shape.2.2

/-! ### PlotMixin.ndvi (meta.py lines 379-381, 393-395)

Bands are modelled as ℚ-valued pixel functions; the astype(float32) cast is
modelled as exact rational arithmetic.  self[bands, ...] with a band list
is fancy indexing along axis 0: it stacks the selected bands. -/

/-- A band: pixel values indexed by (row, col). -/
def Band : Type := ℕ → ℕ → ℚ

/-- The zero band (out-of-range placeholder for band selection; the claims
only evaluate selections within range). -/
def zeroBand : Band := fun _ _ => 0

/-- PlotMixin._ndvi_bands (meta.py lines 379-381). -/
def ndviBands : List ℕ := [6, 4]

/-- self[bands, ...]: fancy indexing along the band axis. -/
def bandSelect (img : List Band) (bs : List ℕ) : List Band :=
  bs.map fun b => img.getD b zeroBand

/-- PlotMixin.ndvi (meta.py lines 393-395): read the _ndvi_bands selection,
cast to float, and return (data[0] - data[1]) / (data[0] + data[1])
elementwise. -/
def ndvi (img : List Band) : Band := fun i j =>
  let data := bandSelect img ndviBands
  ((data.getD 0 zeroBand) i j - (data.getD 1 zeroBand) i j) /
    ((data.getD 0 zeroBand) i j + (data.getD 1 zeroBand) i j)

instance (A B : Rect) : Decidable (rectSubset A B) := by
  unfold rectSubset
  infer_instance

instance (s : ℕ × ℕ × ℕ) (w : ℕ × ℕ) (r c : ℕ) : Decidable (randwindowDrawOK s w r c) := by
  unfold randwindowDrawOK
  infer_instance

/-! ### Theorems -/

/-- C6: aoi parses exactly one of the three geometry keywords with
precedence bbox, then wkt, then geojson: when bbox is given, wkt and
geojson are silently ignored; when wkt is given (and bbox is not), geojson
is ignored; a lone geojson is parsed and used; and when none of the three
is given, aoi returns self unchanged with no error. -/
theorem aoi_geometry_precedence (img : GImage) (rp : Rect → String → Rect)
    (b : ℚ × ℚ × ℚ × ℚ) (w gj : Option Rect) (w2 : Rect) (gj2 : Option Rect)
    (gj3 : Rect) (fp : Option String) :
    img.aoi rp (some b) w gj fp = img.aoi rp (some b) none none fp
    ∧ img.aoi rp none (some w2) gj2 fp = img.aoi rp none (some w2) none fp
    ∧ (parseGeoms img rp none none (some gj3) fp).isSome = true
    ∧ img.aoi rp none none none fp = .ok img := by
  refine ⟨rfl, rfl, ?_, rfl⟩
  cases hp : img.proj <;> simp [parseGeoms, hp]

/-- C8: create succeeds exactly when its argument is an instance of a
DaskMeta subclass whose declared shape has 2 or 3 axes, raising an
assertion error otherwise; on success the images shape, dtype and chunks
equal the declared ones and the meta object is retrievable as the attached
daskmeta capability. -/
theorem create_contract (v : PyVal) :
    ((∃ i, create v = Except.ok i) ↔
      ∃ m, v = PyVal.daskMeta m ∧ (m.shape.length = 2 ∨ m.shape.length = 3))
    ∧ ∀ m i, v = PyVal.daskMeta m → create v = Except.ok i →
        i.shape = m.shape ∧ i.dtype = m.dtype ∧ i.chunks = m.chunks ∧ i.daskmeta = m := by
  constructor
  · cases v with
    | other t => simp [create]
    | daskMeta m =>
      by_cases h : m.shape.length = 2 ∨ m.shape.length = 3
      · simp [create, h]
      · simp [create, h]
  · rintro m i rfl hok
    by_cases h : m.shape.length = 2 ∨ m.shape.length = 3
    · simp only [create, if_pos h, Except.ok.injEq] at hok
      rw [← hok]
      exact ⟨rfl, rfl, rfl, rfl⟩
    · simp [create, h] at hok

/-- Witness for create_contract: a concrete 3-axis DaskMeta record is
accepted. -/
theorem create_contract_witness :
    ∃ i, create (PyVal.daskMeta ⟨[], "img", [1, 2, 2], "uint16", [1, 2, 2]⟩) =
      Except.ok i :=
  (create_contract (PyVal.daskMeta ⟨[], "img", [1, 2, 2], "uint16", [1, 2, 2]⟩)).1.mpr
    ⟨⟨[], "img", [1, 2, 2], "uint16", [1, 2, 2]⟩, rfl, Or.inr rfl⟩

/-- C9: ndvi reads the default bands [6, 4] along axis 0 and returns the
elementwise normalized difference (a - b)/(a + b) of band 6 and band 4; on
two uniform bands of values 0.8 = 4/5 and 0.2 = 1/5 it is uniformly
0.6 = 3/5 (floats modelled as exact rationals). -/
theorem ndvi_normalized_difference :
    (∀ (img : List Band) (i j : ℕ),
      ndvi img i j =
        ((img.getD 6 zeroBand) i j - (img.getD 4 zeroBand) i j) /
          ((img.getD 6 zeroBand) i j + (img.getD 4 zeroBand) i j))
    ∧ ∀ img : List Band,
        img.getD 6 zeroBand = (fun _ _ => (4 / 5 : ℚ)) →
        img.getD 4 zeroBand = (fun _ _ => (1 / 5 : ℚ)) →
        ∀ i j : ℕ, ndvi img i j = 3 / 5 := by
  constructor
  · intro img i j
    rfl
  · intro img h6 h4 i j
    have hdef : ndvi img i j =
        ((img.getD 6 zeroBand) i j - (img.getD 4 zeroBand) i j) /
          ((img.getD 6 zeroBand) i j + (img.getD 4 zeroBand) i j) := rfl
    rw [hdef, h6, h4]
    norm_num

/-- Witness for ndvi_normalized_difference: the concrete 7-band image whose
band 6 is uniformly 4/5 and band 4 uniformly 1/5 yields ndvi value 3/5. -/
theorem ndvi_normalized_difference_witness :
    ndvi [zeroBand, zeroBand, zeroBand, zeroBand, (fun _ _ => (1 / 5 : ℚ)),
      zeroBand, (fun _ _ => (4 / 5 : ℚ))] 0 0 = 3 / 5 :=
  ndvi_normalized_difference.2
    [zeroBand, zeroBand, zeroBand, zeroBand, (fun _ _ => (1 / 5 : ℚ)),
      zeroBand, (fun _ _ => (4 / 5 : ℚ))] rfl rfl 0 0

/-- C3 (code bug): on an image of shape (3, 10, 10) with
window_shape = (2, 3) and the valid randrange draws row = 5, col = 7,
randwindow returns a window of 2 rows but also only 2 columns (the source
uses window_shape[0] for the column slice width), narrower than the 3
columns requested; moreover no valid draw can place the window against the
last row or last column (randrange excludes the upper endpoint), so the
placement is not uniform over all positions where the window fits. -/
theorem randwindow_window_shape_bug :
    randwindowDrawOK (3, 10, 10) (2, 3) 5 7
    ∧ (randwindow (2, 3) 5 7).chi - (randwindow (2, 3) 5 7).clo = 2
    ∧ (randwindow (2, 3) 5 7).rhi - (randwindow (2, 3) 5 7).rlo = 2
    ∧ (randwindow (2, 3) 5 7).chi - (randwindow (2, 3) 5 7).clo < 3
    ∧ ((List.range 10).all fun row => (randwindow (2, 3) row 7).rhi != 10) = true
    ∧ ((List.range 10).all fun col => (randwindow (2, 3) 5 col).chi != 10) = true := by
  decide

/-- C10: for an image with a 2-axis shape the containment test builds
box(0, 0, *shape[2:0:-1]) from a 1-element slice, so shapely box receives
three coordinates and raises a TypeError for every geometry; geometry
indexing and aoi with a geometry therefore fail with that error instead of
testing containment. -/
theorem contains_two_axis_error (img : GImage) (g : Rect) (rp : Rect → String → Rect)
    (h2 : img.shape.length = 2) :
    img.containsE g = .error .typeError
    ∧ img.getitem g = .error .typeError
    ∧ img.aoi rp none (some g) none none = .error .typeError := by
  obtain ⟨a, b, hs⟩ := List.length_eq_two.mp h2
  have hcon : ∀ g2 : Rect, img.containsE g2 = .error .typeError := by
    intro g2
    simp [GImage.containsE, shapeSlice20m1, hs, boxOfArgs, Bind.bind, Except.bind]
  have hget : ∀ g2 : Rect, img.getitem g2 = .error .typeError := by
    intro g2
    simp [GImage.getitem, hcon g2, Bind.bind, Except.bind]
  refine ⟨hcon g, hget g, ?_⟩
  cases hp : img.proj <;> simp [GImage.aoi, parseGeoms, hp, hget]

/-- Witness for contains_two_axis_error: a concrete 2-axis image rejects a
concrete geometry with a TypeError. -/
theorem contains_two_axis_error_witness :
    GImage.containsE ⟨[5, 7], ⟨1, 0, 1, 0⟩, ⟨0, 0, 1, 1⟩, none⟩ ⟨0, 0, 1, 1⟩ =
      .error .typeError :=
  (contains_two_axis_error ⟨[5, 7], ⟨1, 0, 1, 0⟩, ⟨0, 0, 1, 1⟩, none⟩ ⟨0, 0, 1, 1⟩
    (fun g _ => g) rfl).1

/-- Translation composition of the modelled transform: translating twice
adds the pixel offsets. -/
theorem GeoTfm.translate_translate (t : GeoTfm) (dx dy dx2 dy2 : ℚ) :
    (t.translate dx dy).translate dx2 dy2 = t.translate (dx + dx2) (dy + dy2) := by
  simp only [GeoTfm.translate, GeoTfm.mk.injEq, true_and, and_true]
  exact ⟨by ring, by ring⟩

/-- A successful geometry indexing determines the fields of the returned
image: geo interface mapping(g), transform translated by the pixel window
offset, projection preserved, shape sliced to the window. -/
theorem getitem_ok_fields (img : GImage) (g : Rect) (i : GImage)
    (h : img.getitem g = .ok i) :
    i.geo = g
    ∧ i.tfm = img.tfm.translate (revRect img.tfm g).minx (revRect img.tfm g).miny
    ∧ i.proj = img.proj
    ∧ i.shape = sliceShape img.shape (revRect img.tfm g) := by
  unfold GImage.getitem at h
  cases hc : img.containsE g with
  | error e =>
    rw [hc] at h
    simp [Bind.bind, Except.bind] at h
  | ok cv =>
    rw [hc] at h
    simp only [Bind.bind, Except.bind] at h
    by_cases hcv : cv = true
    · rw [if_pos hcv] at h
      injection h with h2
      subst h2
      exact ⟨rfl, rfl, rfl, rfl⟩
    · rw [if_neg hcv] at h
      exact absurd h (by simp)

/-- Evaluation lemma: on a 3-axis image whose containment test accepts the
geometry, geometry indexing returns the sliced, translated, re-tagged
image. -/
theorem getitem_eval (img : GImage) (g : Rect) (nb nr nc : ℕ)
    (h3 : img.shape = [nb, nr, nc])
    (hc : rectContains ⟨0, 0, (nc : ℚ), (nr : ℚ)⟩ (revRect img.tfm g) = true) :
    img.getitem g = .ok
      { shape := sliceShape img.shape (revRect img.tfm g),
        tfm := img.tfm.translate (revRect img.tfm g).minx (revRect img.tfm g).miny,
        geo := g, proj := img.proj } := by
  have hcE : img.containsE g = .ok true := by
    simp [GImage.containsE, shapeSlice20m1, h3, boxOfArgs, Bind.bind, Except.bind, hc]
  simp [GImage.getitem, hcE, Bind.bind, Except.bind]

/-- C4: for a 3-axis image, geometry indexing succeeds exactly when the
query geometry, transformed into pixel space by the reverse transform, is
contained in the box (0, 0, cols, rows) built from the images own shape;
otherwise it raises the containment assertion whose message carries both
the geometry bounds and the image bounds. -/
theorem getitem_containment_check (img : GImage) (nb nr nc : ℕ) (g : Rect)
    (h3 : img.shape = [nb, nr, nc]) :
    ((∃ i, img.getitem g = .ok i) ↔
      rectContains ⟨0, 0, (nc : ℚ), (nr : ℚ)⟩ (revRect img.tfm g) = true)
    ∧ (rectContains ⟨0, 0, (nc : ℚ), (nr : ℚ)⟩ (revRect img.tfm g) = false →
        img.getitem g = .error (.assertContain g img.bounds)) := by
  have hc : img.containsE g =
      .ok (rectContains ⟨0, 0, (nc : ℚ), (nr : ℚ)⟩ (revRect img.tfm g)) := by
    simp [GImage.containsE, shapeSlice20m1, h3, boxOfArgs, Bind.bind, Except.bind]
  have hgi : img.getitem g =
      if rectContains ⟨0, 0, (nc : ℚ), (nr : ℚ)⟩ (revRect img.tfm g)
      then Except.ok
        { shape := sliceShape img.shape (revRect img.tfm g),
          tfm := img.tfm.translate (revRect img.tfm g).minx (revRect img.tfm g).miny,
          geo := g, proj := img.proj }
      else Except.error (.assertContain g img.bounds) := by
    simp [GImage.getitem, hc, Bind.bind, Except.bind]
  cases hb : rectContains ⟨0, 0, (nc : ℚ), (nr : ℚ)⟩ (revRect img.tfm g) <;>
    simp [hgi, hb]

/-- Witness for getitem_containment_check: a concrete contained geometry is
accepted by a concrete 3-axis image. -/
theorem getitem_containment_check_witness :
    ∃ i, GImage.getitem ⟨[8, 10, 10], ⟨1, 0, 1, 0⟩, ⟨0, 0, 10, 10⟩, none⟩
      ⟨1, 1, 9, 9⟩ = .ok i :=
  (getitem_containment_check ⟨[8, 10, 10], ⟨1, 0, 1, 0⟩, ⟨0, 0, 10, 10⟩, none⟩
    8 10 10 ⟨1, 1, 9, 9⟩ rfl).1.mpr
    (by simp only [rectContains, revRect, decide_eq_true_eq]; norm_num)

/-- C5: geometry indexing translates the transform by the pixel offset of
the query windows bounds rather than resetting it, and indexing an
already-clipped image a second time composes the two pixel offsets
additively on top of the original transform. -/
theorem getitem_translation_composition (img : GImage) (g1 g2 : Rect) (i1 i2 : GImage)
    (h1 : img.getitem g1 = .ok i1) (h2 : i1.getitem g2 = .ok i2) :
    i1.tfm = img.tfm.translate (revRect img.tfm g1).minx (revRect img.tfm g1).miny
    ∧ i2.tfm = img.tfm.translate
        ((revRect img.tfm g1).minx + (revRect i1.tfm g2).minx)
        ((revRect img.tfm g1).miny + (revRect i1.tfm g2).miny) := by
  obtain ⟨-, ht1, -, -⟩ := getitem_ok_fields img g1 i1 h1
  obtain ⟨-, ht2, -, -⟩ := getitem_ok_fields i1 g2 i2 h2
  refine ⟨ht1, ?_⟩
  rw [ht2, ht1, GeoTfm.translate_translate]

/-- Witness for getitem_translation_composition: clipping the concrete
10x10 image to (1,1,9,9) and then to (2,2,5,5) yields the original
transform translated by the sum of the two pixel offsets (1 + 1 in each
axis). -/
theorem getitem_translation_composition_witness :
    (GImage.mk [8, 3, 3] ⟨1, 2, 1, 2⟩ ⟨2, 2, 5, 5⟩ none).tfm =
      (GeoTfm.mk 1 0 1 0).translate
        ((revRect ⟨1, 0, 1, 0⟩ ⟨1, 1, 9, 9⟩).minx + (revRect ⟨1, 1, 1, 1⟩ ⟨2, 2, 5, 5⟩).minx)
        ((revRect ⟨1, 0, 1, 0⟩ ⟨1, 1, 9, 9⟩).miny + (revRect ⟨1, 1, 1, 1⟩ ⟨2, 2, 5, 5⟩).miny) :=
  (getitem_translation_composition
    ⟨[8, 10, 10], ⟨1, 0, 1, 0⟩, ⟨0, 0, 10, 10⟩, none⟩ ⟨1, 1, 9, 9⟩ ⟨2, 2, 5, 5⟩
    ⟨[8, 8, 8], ⟨1, 1, 1, 1⟩, ⟨1, 1, 9, 9⟩, none⟩
    ⟨[8, 3, 3], ⟨1, 2, 1, 2⟩, ⟨2, 2, 5, 5⟩, none⟩
    (by
      rw [getitem_eval ⟨[8, 10, 10], ⟨1, 0, 1, 0⟩, ⟨0, 0, 10, 10⟩, none⟩ ⟨1, 1, 9, 9⟩
        8 10 10 rfl (by simp only [rectContains, revRect, decide_eq_true_eq]; norm_num)]
      simp only [Except.ok.injEq, GImage.mk.injEq]
      norm_num [sliceShape, sliceLen, sliceIdx, revRect, GeoTfm.translate]
      decide)
    (by
      rw [getitem_eval ⟨[8, 8, 8], ⟨1, 1, 1, 1⟩, ⟨1, 1, 9, 9⟩, none⟩ ⟨2, 2, 5, 5⟩
        8 8 8 rfl (by simp only [rectContains, revRect, decide_eq_true_eq]; norm_num)]
      simp only [Except.ok.injEq, GImage.mk.injEq]
      norm_num [sliceShape, sliceLen, sliceIdx, revRect, GeoTfm.translate]
      decide)).2

/-- C7: when geometry indexing succeeds and the query geometry lies within
the images spatial bounds, the bounds of the clipped image are contained in
the bounds of the source image. -/
theorem getitem_bounds_subset (img : GImage) (g : Rect) (i : GImage)
    (hok : img.getitem g = .ok i) (hb : rectSubset g img.bounds) :
    rectSubset i.bounds img.bounds := by
  obtain ⟨hgeo, -, -, -⟩ := getitem_ok_fields img g i hok
  unfold GImage.bounds
  rw [hgeo]
  exact hb

/-- Witness for getitem_bounds_subset at the concrete 10x10 image and the
geometry (1,1,9,9). -/
theorem getitem_bounds_subset_witness :
    rectSubset (GImage.mk [8, 8, 8] ⟨1, 1, 1, 1⟩ ⟨1, 1, 9, 9⟩ none).bounds
      (GImage.mk [8, 10, 10] ⟨1, 0, 1, 0⟩ ⟨0, 0, 10, 10⟩ none).bounds :=
  getitem_bounds_subset ⟨[8, 10, 10], ⟨1, 0, 1, 0⟩, ⟨0, 0, 10, 10⟩, none⟩
    ⟨1, 1, 9, 9⟩ ⟨[8, 8, 8], ⟨1, 1, 1, 1⟩, ⟨1, 1, 9, 9⟩, none⟩
    (by
      rw [getitem_eval ⟨[8, 10, 10], ⟨1, 0, 1, 0⟩, ⟨0, 0, 10, 10⟩, none⟩ ⟨1, 1, 9, 9⟩
        8 10 10 rfl (by simp only [rectContains, revRect, decide_eq_true_eq]; norm_num)]
      simp only [Except.ok.injEq, GImage.mk.injEq]
      norm_num [sliceShape, sliceLen, sliceIdx, revRect, GeoTfm.translate]
      decide)
    (by unfold rectSubset GImage.bounds; norm_num)

/-- The warp graph keys in closed form: the double loop registers, for
y below y_chunks and x below x_chunks, the key
(name, 0, y - minTileY, x - minTileX). -/
theorem warpKeys_eq (n : String) (fb sb : Rect) (gsd : ℚ) (md : WarpMd) :
    warpKeys n fb sb gsd md =
      (List.range (warpYChunks fb sb gsd md).toNat).flatMap fun (y : ℕ) =>
        (List.range (warpXChunks fb sb gsd md).toNat).map fun (x : ℕ) =>
          ({ name := n, band := 0, row := (y : ℤ) - md.minTileY,
             col := (x : ℤ) - md.minTileX } : WarpKey) := by
  simp only [warpKeys, warpGraph, List.map_flatMap, List.map_map, Function.comp_def]
  refine List.flatMap_congr ?_
  intro y _
  simp [← List.map_eq_flatMap]

/-- The number of key registrations of the warp double loop is the product
of the chunk counts. -/
theorem warpKeys_length (n : String) (fb sb : Rect) (gsd : ℚ) (md : WarpMd) :
    (warpKeys n fb sb gsd md).length =
      (warpYChunks fb sb gsd md).toNat * (warpXChunks fb sb gsd md).toNat := by
  rw [warpKeys_eq, List.length_flatMap]
  simp [Function.comp_def]

/-- The warp graph keys are pairwise distinct, so the dict holds exactly
one task per registration. -/
theorem warpKeys_nodup (n : String) (fb sb : Rect) (gsd : ℚ) (md : WarpMd) :
    (warpKeys n fb sb gsd md).Nodup := by
  rw [warpKeys_eq]
  have h : ((List.range (warpYChunks fb sb gsd md).toNat).flatMap fun (y : ℕ) =>
      (List.range (warpXChunks fb sb gsd md).toNat).map fun (x : ℕ) =>
        ({ name := n, band := 0, row := (y : ℤ) - md.minTileY,
           col := (x : ℤ) - md.minTileX } : WarpKey)) =
      ((List.range (warpYChunks fb sb gsd md).toNat).product
        (List.range (warpXChunks fb sb gsd md).toNat)).map
        (fun (p : ℕ × ℕ) =>
          ({ name := n, band := 0, row := (p.1 : ℤ) - md.minTileY,
             col := (p.2 : ℤ) - md.minTileX } : WarpKey)) := by
    simp only [List.product, List.map_flatMap]
    refine List.flatMap_congr ?_
    intro y _
    simp [List.map_map, Function.comp_def, ← List.map_eq_flatMap]
  rw [h]
  refine List.Nodup.map ?_
    (List.Nodup.product (List.nodup_range _) (List.nodup_range _))
  intro p q hpq
  simp only [WarpKey.mk.injEq] at hpq
  have h1 : p.1 = q.1 := by omega
  have h2 : p.2 = q.2 := by omega
  exact Prod.ext h1 h2

/-- Membership characterization of the warp graph keys. -/
theorem mem_warpKeys (n : String) (fb sb : Rect) (gsd : ℚ) (md : WarpMd)
    (k : WarpKey) :
    k ∈ warpKeys n fb sb gsd md ↔
      ∃ y x : ℕ, y < (warpYChunks fb sb gsd md).toNat
        ∧ x < (warpXChunks fb sb gsd md).toNat
        ∧ k = { name := n, band := 0, row := (y : ℤ) - md.minTileY,
                col := (x : ℤ) - md.minTileX } := by
  rw [warpKeys_eq]
  simp only [List.mem_flatMap, List.mem_map, List.mem_range]
  constructor
  · rintro ⟨y, hy, x, hx, rfl⟩
    exact ⟨y, x, hy, hx, rfl⟩
  · rintro ⟨y, x, hy, hx, rfl⟩
    exact ⟨y, hy, x, hx, rfl⟩

/-- pyInt is the floor on nonnegative arguments. -/
theorem pyInt_eq_floor (q : ℚ) (h : 0 ≤ q) : pyInt q = Int.floor q := by
  unfold pyInt
  exact if_pos h

/-- The pixel-space x-extent of the current bounds under the gsd-anchored
affine is the geographic width divided by gsd. -/
theorem warp_extent_x (fb sb : Rect) (gsd : ℚ) :
    (warpUR fb sb gsd).1 - (warpLL fb sb gsd).1 = (sb.maxx - sb.minx) / gsd := by
  simp only [warpUR, warpLL, warpGtf, GeoTfm.rev]
  rw [div_sub_div_same]
  congr 1
  ring

/-- The pixel-space y-extent of the current bounds under the gsd-anchored
affine is the geographic height divided by gsd. -/
theorem warp_extent_y (fb sb : Rect) (gsd : ℚ) :
    (warpLL fb sb gsd).2 - (warpUR fb sb gsd).2 = (sb.maxy - sb.miny) / gsd := by
  simp only [warpUR, warpLL, warpGtf, GeoTfm.rev]
  rw [div_sub_div_same,
    show sb.miny - fb.maxy - (sb.maxy - fb.maxy) = -(sb.maxy - sb.miny) by ring,
    neg_div_neg_eq]

/-- x_chunks in closed form for a well-formed call: floor of the pixel
width over the tile width, plus one. -/
theorem warpXChunks_eq (fb sb : Rect) (gsd : ℚ) (md : WarpMd)
    (hg : 0 < gsd) (hw : sb.minx ≤ sb.maxx) :
    warpXChunks fb sb gsd md =
      ⌊(sb.maxx - sb.minx) / gsd / md.tileXSize⌋ + 1 := by
  unfold warpXChunks
  rw [warp_extent_x, pyInt_eq_floor]
  exact div_nonneg (div_nonneg (by linarith) hg.le) (Nat.cast_nonneg _)

/-- y_chunks in closed form for a well-formed call. -/
theorem warpYChunks_eq (fb sb : Rect) (gsd : ℚ) (md : WarpMd)
    (hg : 0 < gsd) (hh : sb.miny ≤ sb.maxy) :
    warpYChunks fb sb gsd md =
      ⌊(sb.maxy - sb.miny) / gsd / md.tileYSize⌋ + 1 := by
  unfold warpYChunks
  rw [warp_extent_y, pyInt_eq_floor]
  exact div_nonneg (div_nonneg (by linarith) hg.le) (Nat.cast_nonneg _)

/-- C1 counterexample: at the concrete warp call with full and current
bounds (0, 0, 10, 10), gsd 1 and tile size 5 x 5 the pixel extent is
exactly 10 x 10, divisible by the tile sizes; the code registers
(int(10/5)+1)^2 = 9 distinct tile tasks while the claimed rule
ceil(10/5) * ceil(10/5) predicts 4, so the tile count does not equal the
ceiling product. -/
theorem warp_tile_count_counterexample :
    (warpKeys "warp-a" ⟨0, 0, 10, 10⟩ ⟨0, 0, 10, 10⟩ 1 ⟨5, 5, 0, 0⟩).Nodup
    ∧ (warpKeys "warp-a" ⟨0, 0, 10, 10⟩ ⟨0, 0, 10, 10⟩ 1 ⟨5, 5, 0, 0⟩).length = 9
    ∧ (⌈((10 : ℚ) - 0) / 1 / 5⌉ * ⌈((10 : ℚ) - 0) / 1 / 5⌉ : ℤ) = 4
    ∧ decide ((warpKeys "warp-a" ⟨0, 0, 10, 10⟩ ⟨0, 0, 10, 10⟩ 1 ⟨5, 5, 0, 0⟩).length
        = (⌈((10 : ℚ) - 0) / 1 / 5⌉ * ⌈((10 : ℚ) - 0) / 1 / 5⌉ : ℤ).toNat) = false := by
  have hx : warpXChunks ⟨0, 0, 10, 10⟩ ⟨0, 0, 10, 10⟩ 1 ⟨5, 5, 0, 0⟩ = 3 := by
    norm_num [warpXChunks, warpUR, warpLL, warpGtf, GeoTfm.rev, pyInt]
  have hy : warpYChunks ⟨0, 0, 10, 10⟩ ⟨0, 0, 10, 10⟩ 1 ⟨5, 5, 0, 0⟩ = 3 := by
    norm_num [warpYChunks, warpUR, warpLL, warpGtf, GeoTfm.rev, pyInt]
  have hlen : (warpKeys "warp-a" ⟨0, 0, 10, 10⟩ ⟨0, 0, 10, 10⟩ 1 ⟨5, 5, 0, 0⟩).length = 9 := by
    rw [warpKeys_length, hx, hy]
    rfl
  have hceil : (⌈((10 : ℚ) - 0) / 1 / 5⌉ * ⌈((10 : ℚ) - 0) / 1 / 5⌉ : ℤ) = 4 := by
    norm_num
  refine ⟨warpKeys_nodup _ _ _ _ _, hlen, hceil, ?_⟩
  rw [hlen, hceil]
  rfl

/-- C1 (amended): for every warp call with positive gsd and well-formed
current bounds spanning W x H pixels under the gsd-anchored affine
transform, the code registers pairwise-distinct tile keys numbering
(floor(W/tw) + 1) * (floor(H/th) + 1): the +1 is unconditional, so the
count agrees with the claimed ceiling rule exactly when neither division is
exact. -/
theorem warp_tile_count (n : String) (fb sb : Rect) (gsd : ℚ) (md : WarpMd)
    (hg : 0 < gsd) (hw : sb.minx ≤ sb.maxx) (hh : sb.miny ≤ sb.maxy) :
    (warpKeys n fb sb gsd md).Nodup
    ∧ ((warpKeys n fb sb gsd md).length : ℤ) =
        (⌊(sb.maxx - sb.minx) / gsd / md.tileXSize⌋ + 1) *
        (⌊(sb.maxy - sb.miny) / gsd / md.tileYSize⌋ + 1) := by
  refine ⟨warpKeys_nodup _ _ _ _ _, ?_⟩
  have hx := warpXChunks_eq fb sb gsd md hg hw
  have hy := warpYChunks_eq fb sb gsd md hg hh
  have hx0 : 0 ≤ warpXChunks fb sb gsd md := by
    rw [hx]
    have := Int.floor_nonneg.mpr
      (div_nonneg (div_nonneg (by linarith : (0:ℚ) ≤ sb.maxx - sb.minx) hg.le)
        (Nat.cast_nonneg md.tileXSize))
    omega
  have hy0 : 0 ≤ warpYChunks fb sb gsd md := by
    rw [hy]
    have := Int.floor_nonneg.mpr
      (div_nonneg (div_nonneg (by linarith : (0:ℚ) ≤ sb.maxy - sb.miny) hg.le)
        (Nat.cast_nonneg md.tileYSize))
    omega
  rw [warpKeys_length, Nat.cast_mul, Int.toNat_of_nonneg hx0, Int.toNat_of_nonneg hy0,
    hx, hy]
  ring

/-- Witness for warp_tile_count at the concrete 10 x 10 / tile 4 call with
gsd 1: 0 < 1, bounds are well formed, and the registered count is
(floor(10/4)+1)^2 = 9 tasks. -/
theorem warp_tile_count_witness :
    (0 : ℚ) < 1
    ∧ ((warpKeys "warp-a" ⟨0, 0, 10, 10⟩ ⟨0, 0, 10, 10⟩ 1 ⟨4, 4, 0, 0⟩).length : ℤ) =
        (⌊((10:ℚ) - 0) / 1 / (4:ℕ)⌋ + 1) * (⌊((10:ℚ) - 0) / 1 / (4:ℕ)⌋ + 1) :=
  ⟨by norm_num,
    (warp_tile_count "warp-a" ⟨0, 0, 10, 10⟩ ⟨0, 0, 10, 10⟩ 1 ⟨4, 4, 0, 0⟩
      (by norm_num) (by norm_num) (by norm_num)).2⟩

/-- C2 counterexample: at the concrete warp call whose metadata has
minTileX = 100 (and minTileY = 0), the key with normalized column -100 is
registered and every registered key has normalized column at most -98, so
the minimum normalized column over the generated keys is -100, far from
zero rather than at or near zero. -/
theorem warp_key_normalization_counterexample :
    (⟨"warp-a", 0, -(0 : ℤ), -(100 : ℤ)⟩ : WarpKey) ∈
      warpKeys "warp-a" ⟨0, 0, 10, 10⟩ ⟨0, 0, 10, 10⟩ 1 ⟨5, 5, 100, 0⟩
    ∧ ((warpKeys "warp-a" ⟨0, 0, 10, 10⟩ ⟨0, 0, 10, 10⟩ 1 ⟨5, 5, 100, 0⟩).all
        fun k => decide (k.col ≤ -98)) = true
    ∧ ((-100 : ℤ) < -90) := by
  have hx : warpXChunks ⟨0, 0, 10, 10⟩ ⟨0, 0, 10, 10⟩ 1 ⟨5, 5, 100, 0⟩ = 3 := by
    norm_num [warpXChunks, warpUR, warpLL, warpGtf, GeoTfm.rev, pyInt]
  have hy : warpYChunks ⟨0, 0, 10, 10⟩ ⟨0, 0, 10, 10⟩ 1 ⟨5, 5, 100, 0⟩ = 3 := by
    norm_num [warpYChunks, warpUR, warpLL, warpGtf, GeoTfm.rev, pyInt]
  refine ⟨?_, ?_, by norm_num⟩
  · rw [mem_warpKeys]
    refine ⟨0, 0, by rw [hy]; norm_num, by rw [hx]; norm_num, ?_⟩
    simp
  · rw [List.all_eq_true]
    intro k hk
    rw [mem_warpKeys] at hk
    obtain ⟨y, x, hylt, hxlt, rfl⟩ := hk
    rw [hx] at hxlt
    simp only [decide_eq_true_eq]
    omega

/-- C2 (amended): every key of the warp tile graph has the form
(name, 0, y - minTileY, x - minTileX) with y and x nonnegative grid
indices below the computed chunk counts; hence every normalized row and
column is at least -minTileY and -minTileX respectively, and for a
nonempty grid the key (name, 0, -minTileY, -minTileX) is registered — so
the minimum normalized row and column equal -minTileY and -minTileX, which
are at zero exactly when the full images minimum tile indices are zero. -/
theorem warp_key_normalization (n : String) (fb sb : Rect) (gsd : ℚ) (md : WarpMd)
    (hx : 0 < warpXChunks fb sb gsd md) (hy : 0 < warpYChunks fb sb gsd md) :
    (∀ k ∈ warpKeys n fb sb gsd md, ∃ y x : ℕ,
        (y : ℤ) < warpYChunks fb sb gsd md
        ∧ (x : ℤ) < warpXChunks fb sb gsd md
        ∧ k = { name := n, band := 0, row := (y : ℤ) - md.minTileY,
                col := (x : ℤ) - md.minTileX })
    ∧ (∀ k ∈ warpKeys n fb sb gsd md,
        -md.minTileY ≤ k.row ∧ -md.minTileX ≤ k.col)
    ∧ (⟨n, 0, -md.minTileY, -md.minTileX⟩ : WarpKey) ∈ warpKeys n fb sb gsd md := by
  refine ⟨?_, ?_, ?_⟩
  · intro k hk
    rw [mem_warpKeys] at hk
    obtain ⟨y, x, hylt, hxlt, rfl⟩ := hk
    exact ⟨y, x, by omega, by omega, rfl⟩
  · intro k hk
    rw [mem_warpKeys] at hk
    obtain ⟨y, x, hylt, hxlt, rfl⟩ := hk
    refine ⟨?_, ?_⟩ <;> simp
  · rw [mem_warpKeys]
    refine ⟨0, 0, by omega, by omega, ?_⟩
    simp

/-- Witness for warp_key_normalization: the concrete call with
minTileX = 100 has positive chunk counts and registers the minimal key
(name, 0, -0, -100). -/
theorem warp_key_normalization_witness :
    0 < warpXChunks ⟨0, 0, 10, 10⟩ ⟨0, 0, 10, 10⟩ 1 ⟨5, 5, 100, 0⟩
    ∧ 0 < warpYChunks ⟨0, 0, 10, 10⟩ ⟨0, 0, 10, 10⟩ 1 ⟨5, 5, 100, 0⟩
    ∧ (⟨"warp-a", 0, -(0 : ℤ), -(100 : ℤ)⟩ : WarpKey) ∈
        warpKeys "warp-a" ⟨0, 0, 10, 10⟩ ⟨0, 0, 10, 10⟩ 1 ⟨5, 5, 100, 0⟩ := by
  have hx : warpXChunks ⟨0, 0, 10, 10⟩ ⟨0, 0, 10, 10⟩ 1 ⟨5, 5, 100, 0⟩ = 3 := by
    norm_num [warpXChunks, warpUR, warpLL, warpGtf, GeoTfm.rev, pyInt]
  have hy : warpYChunks ⟨0, 0, 10, 10⟩ ⟨0, 0, 10, 10⟩ 1 ⟨5, 5, 100, 0⟩ = 3 := by
    norm_num [warpYChunks, warpUR, warpLL, warpGtf, GeoTfm.rev, pyInt]
  exact ⟨by omega, by omega,
    (warp_key_normalization "warp-a" ⟨0, 0, 10, 10⟩ ⟨0, 0, 10, 10⟩ 1 ⟨5, 5, 100, 0⟩
      (by omega) (by omega)).2.2⟩

end GbdxMeta
